import Mathlib

/-!
Verification of the OrbitStream ingest-and-durability pipeline.

Shallow embedding of the Go sources:
* `models/telemetry.go`  — `TelemetryPoint`
* `db/wal.go`            — `WALRecord`, `splitLines`, `ReadAll`
* `db/circuit_breaker.go`— `CircuitBreaker` with `Allow` / `RecordSuccess` / `RecordFailure`
* `db/batch.go`          — `BatchProcessor.Add`, `detectAnomaly`, `flushWithRetry`, `flushToWAL`
* `db/health_monitor.go` — `replayWAL`
* `handlers/telemetry.go`— `HandleTelemetry`, `HandleTelemetryBatch`

Modelling conventions: Go `float64` values are embedded as `ℚ` (the program only
compares and copies them); `time.Time` instants and durations are embedded as `ℤ`
(nanoseconds, with `0` standing for Go's zero time, i.e. "unset"); Go's nil-able
`*float64` pointer fields are `Option ℚ`; the database store is a list of rows;
store transactions are abstracted by a success oracle, since the real outcome
depends on the external database.  Mutexes are dropped: each Go method that
mutates its receiver becomes a function from the old state to the new state.
-/

namespace OrbitStream

/-- State of the circuit breaker (`CircuitBreakerState` in `circuit_breaker.go`). -/
inductive CBState where
  | Closed
  | Open
  | HalfOpen
deriving DecidableEq, Repr

/-- `CircuitBreaker` struct from `circuit_breaker.go`.  Times are ℤ nanoseconds. -/
structure CircuitBreaker where
  state : CBState
  failureCount : Int
  failureThreshold : Int
  lastFailureTime : Int
  timeout : Int
  halfOpenAttempts : Int
deriving DecidableEq, Repr

/-- `NewCircuitBreaker(threshold, timeout)`: Go zero values for the remaining fields. -/
def newCircuitBreaker (threshold timeout : Int) : CircuitBreaker :=
  { state := CBState.Closed, failureCount := 0, failureThreshold := threshold,
    lastFailureTime := 0, timeout := timeout, halfOpenAttempts := 0 }

/-- `CircuitBreaker.Allow` from `circuit_breaker.go`.  `now` is the current instant
(`time.Since(cb.lastFailureTime) = now - cb.lastFailureTime`).  Returns the decision
together with the updated breaker (the Go method mutates its receiver). -/
def allow (cb : CircuitBreaker) (now : Int) : Bool × CircuitBreaker :=
  match cb.state with
  | CBState.Closed => (true, cb)
  | CBState.Open =>
      if cb.timeout ≤ now - cb.lastFailureTime then
        (true, { cb with state := CBState.HalfOpen, halfOpenAttempts := 0 })
      else
        (false, cb)
  | CBState.HalfOpen =>
      let cb₁ := { cb with halfOpenAttempts := cb.halfOpenAttempts + 1 }
      if 1 < cb₁.halfOpenAttempts then (false, cb₁) else (true, cb₁)

/-- `CircuitBreaker.RecordSuccess` from `circuit_breaker.go`. -/
def recordSuccess (cb : CircuitBreaker) : CircuitBreaker :=
  if cb.state = CBState.HalfOpen then
    { cb with state := CBState.Closed, failureCount := 0, halfOpenAttempts := 0 }
  else
    cb

/-- `CircuitBreaker.RecordFailure` from `circuit_breaker.go`: increment the count and
stamp the failure time, then open the circuit when the threshold is reached (from
CLOSED) or immediately (from HALF_OPEN). -/
def recordFailure (cb : CircuitBreaker) (now : Int) : CircuitBreaker :=
  let cb₁ := { cb with failureCount := cb.failureCount + 1, lastFailureTime := now }
  if cb₁.state = CBState.Closed ∧ cb₁.failureThreshold ≤ cb₁.failureCount then
    { cb₁ with state := CBState.Open }
  else if cb₁.state = CBState.HalfOpen then
    { cb₁ with state := CBState.Open, halfOpenAttempts := 0 }
  else
    cb₁

/-- `models.TelemetryPoint` from `models/telemetry.go` (the current version with the
four nullable position fields).  `timestamp = 0` models Go's zero `time.Time`. -/
structure TelemetryPoint where
  satelliteID : String
  batteryChargePercent : ℚ
  storageUsageMB : ℚ
  signalStrengthDBM : ℚ
  timestamp : Int
  isAnomaly : Bool
  latitude : Option ℚ
  longitude : Option ℚ
  altitudeKM : Option ℚ
  velocityKMPH : Option ℚ
deriving DecidableEq, Repr

/-- `WALRecord` from `db/wal.go`, including the four nullable position fields. -/
structure WALRecord where
  timestamp : Int
  satelliteID : String
  batteryChargePercent : ℚ
  storageUsageMB : ℚ
  signalStrengthDBM : ℚ
  isAnomaly : Bool
  latitude : Option ℚ
  longitude : Option ℚ
  altitudeKM : Option ℚ
  velocityKMPH : Option ℚ
deriving DecidableEq, Repr

/-- `AnomalyConfig` from `db/batch.go`. -/
structure AnomalyConfig where
  batteryMinPercent : ℚ
  storageMaxMB : ℚ
  signalMinDBM : ℚ
deriving DecidableEq, Repr

/-- `BatchProcessor.detectAnomaly` from `db/batch.go`: three strict threshold
comparisons tried in order, each returning `true` on its own. -/
def detectAnomaly (cfg : AnomalyConfig) (point : TelemetryPoint) : Bool :=
  if point.batteryChargePercent < cfg.batteryMinPercent then true
  else if cfg.storageMaxMB < point.storageUsageMB then true
  else if point.signalStrengthDBM < cfg.signalMinDBM then true
  else false

/-- The `WALRecord` literal built inside `BatchProcessor.flushToWAL` (`db/batch.go`):
it copies the six scalar fields and leaves every other field at its Go zero value,
so the four position pointers come out `nil` (`none`). -/
def toWALRecord (point : TelemetryPoint) : WALRecord :=
  { timestamp := point.timestamp,
    satelliteID := point.satelliteID,
    batteryChargePercent := point.batteryChargePercent,
    storageUsageMB := point.storageUsageMB,
    signalStrengthDBM := point.signalStrengthDBM,
    isAnomaly := point.isAnomaly,
    latitude := none, longitude := none, altitudeKM := none, velocityKMPH := none }

/-- The subset of the `BatchProcessor` struct (`db/batch.go`) that the admission
path reads and writes.  The connection pool, ticker and channels are external
resources and are not part of the admission state. -/
structure BatchProcessor where
  batchSize : Int
  buffer : List TelemetryPoint
  anomalyConfig : AnomalyConfig
  maxBufferSize : Int
deriving DecidableEq, Repr

/-- `BatchProcessor.Add` from `db/batch.go`: reject when the buffer is at
`maxBufferSize` (returning the "buffer at maximum capacity" error and leaving the
receiver untouched); otherwise classify the point and append it.  The `go bp.flush()`
spawned when the batch-size trigger fires is asynchronous and does not change the
state observable at `Add`'s return, so it is not part of this function. -/
def Add (bp : BatchProcessor) (point : TelemetryPoint) : BatchProcessor × Option String :=
  if bp.maxBufferSize ≤ (bp.buffer.length : Int) then
    (bp, some "buffer at maximum capacity")
  else
    let point₁ := { point with isAnomaly := detectAnomaly bp.anomalyConfig point }
    ({ bp with buffer := bp.buffer ++ [point₁] }, none)

/-- All states a batch processor passes through while a sequence of `Add` calls is
executed: the state before the first call and the state after each call (a failed
`Add` leaves the state unchanged). -/
def addSeq (bp : BatchProcessor) : List TelemetryPoint → List BatchProcessor
  | [] => [bp]
  | p :: ps => bp :: addSeq (Add bp p).1 ps

/-- `TelemetryHandler.HandleTelemetry` from `handlers/telemetry.go`, after a
successful JSON bind: assign `now` to an unset timestamp, call `Add`, answer
202 "accepted" or 503 "buffer full".  Returns the HTTP status and the new state. -/
def handleTelemetry (now : Int) (bp : BatchProcessor) (point : TelemetryPoint) :
    Nat × BatchProcessor :=
  let point₁ := if point.timestamp = 0 then { point with timestamp := now } else point
  let r := Add bp point₁
  match r.2 with
  | some _ => (503, r.1)
  | none => (202, r.1)

/-- The loop body of `TelemetryHandler.HandleTelemetryBatch`: for each point assign
`now` to an unset timestamp and call `Add`; on error log and continue, otherwise
increment `acceptedCount`. -/
def handleBatchLoop (now : Int) : List TelemetryPoint → BatchProcessor → Int →
    BatchProcessor × Int
  | [], bp, count => (bp, count)
  | p :: ps, bp, count =>
      let p₁ := if p.timestamp = 0 then { p with timestamp := now } else p
      let r := Add bp p₁
      match r.2 with
      | some _ => handleBatchLoop now ps r.1 count
      | none => handleBatchLoop now ps r.1 (count + 1)

/-- `TelemetryHandler.HandleTelemetryBatch` from `handlers/telemetry.go`, after a
successful JSON bind of the array: run the loop, then always answer 202 with the
accepted count.  Returns (HTTP status, count, new state). -/
def handleTelemetryBatch (now : Int) (bp : BatchProcessor) (points : List TelemetryPoint) :
    Nat × Int × BatchProcessor :=
  let r := handleBatchLoop now points bp 0
  (202, r.2, r.1)

/-- `BatchProcessor.flushToWAL` from `db/batch.go`: if no WAL is configured, fail
with "WAL not configured"; otherwise append `toWALRecord` of every point of the
batch, in order.  (`WAL.Write` itself fails only on filesystem errors, which the
embedding does not model.)  Returns success and the new WAL contents. -/
def flushToWAL (wal : Option (List WALRecord)) (batch : List TelemetryPoint) :
    Bool × Option (List WALRecord) :=
  match wal with
  | none => (false, none)
  | some w => (true, some (w ++ batch.map toWALRecord))

/-- Outcomes of the external world during one `flushWithRetry` run: whether the
store transaction attempted at loop iteration `k` succeeds, the clock value read at
iteration `k`, and the value `randFloat64()` returns at iteration `k` (a number in
[0, 1)). -/
structure FlushEnv where
  insertOk : Nat → Bool
  now : Nat → Int
  rand : Nat → ℚ

/-- The state threaded through `flushWithRetry`: the circuit breaker, the WAL
contents (`none` when no WAL is configured), the rows visible in the store, the
back-off sleeps performed so far, and how many store transactions were attempted. -/
structure FlushState where
  cb : CircuitBreaker
  wal : Option (List WALRecord)
  store : List TelemetryPoint
  sleeps : List ℚ
  insertTries : Nat
deriving DecidableEq, Repr

/-- The retry loop of `BatchProcessor.flushWithRetry` (`db/batch.go`), at loop
iteration `k`: while `k < maxRetries`, consult `Allow` (false ⇒ straight to the WAL
fallback); attempt the batch transaction; on success record success and stop; on
failure record failure and, unless this was the last attempt, sleep
`retryDelay·2^k` plus the jitter `delay·0.2·(2·rand−1)`; when the loop exhausts all
attempts, fall back to the WAL. -/
def flushWithRetryAux (retryDelay : ℚ) (maxRetries : Nat) (env : FlushEnv)
    (batch : List TelemetryPoint) (k : Nat) (s : FlushState) : Bool × FlushState :=
  if h : k < maxRetries then
    let a := allow s.cb (env.now k)
    if a.1 then
      let s₁ : FlushState := { s with cb := a.2, insertTries := s.insertTries + 1 }
      if env.insertOk k then
        (true, { s₁ with cb := recordSuccess s₁.cb, store := s₁.store ++ batch })
      else
        let cb₂ := recordFailure s₁.cb (env.now k)
        if k < maxRetries - 1 then
          let delay := retryDelay * 2 ^ k
          let jitter := delay * (1 / 5) * (2 * env.rand k - 1)
          flushWithRetryAux retryDelay maxRetries env batch (k + 1)
            { s₁ with cb := cb₂, sleeps := s₁.sleeps ++ [delay + jitter] }
        else
          flushWithRetryAux retryDelay maxRetries env batch (k + 1) { s₁ with cb := cb₂ }
    else
      let w := flushToWAL s.wal batch
      (w.1, { s with cb := a.2, wal := w.2 })
  else
    let w := flushToWAL s.wal batch
    (w.1, { s with wal := w.2 })
termination_by maxRetries - k

/-- `BatchProcessor.flushWithRetry` from `db/batch.go`: the loop starting at
attempt 0. -/
def flushWithRetry (retryDelay : ℚ) (maxRetries : Nat) (env : FlushEnv)
    (batch : List TelemetryPoint) (s : FlushState) : Bool × FlushState :=
  flushWithRetryAux retryDelay maxRetries env batch 0 s

/-- `splitLines`'s accumulation from `db/wal.go`, with the bytes between the last
delimiter and the cursor carried as `cur`: every `'\n'` (byte 10) closes the
current line, and a nonempty final segment is emitted as a last line. -/
def splitLinesAux (cur : List Nat) : List Nat → List (List Nat)
  | [] => if cur = [] then [] else [cur]
  | b :: rest =>
      if b = 10 then cur :: splitLinesAux [] rest
      else splitLinesAux (cur ++ [b]) rest

/-- `splitLines` from `db/wal.go`. -/
def splitLines (data : List Nat) : List (List Nat) :=
  splitLinesAux [] data

/-- The parsing loop of `WAL.ReadAll` (`db/wal.go`): split the file into lines,
skip empty lines, parse each line (`json.Unmarshal` is the parameter `parse`), skip
lines that fail to parse with a warning, collect the rest in order. -/
def readAll (parse : List Nat → Option WALRecord) (data : List Nat) : List WALRecord :=
  (splitLines data).foldl
    (fun records line =>
      if line.length = 0 then records
      else
        match parse line with
        | some record => records ++ [record]
        | none => records)
    []

/-- The byte contents of a WAL file whose completely written records serialize to
the given lines: each line followed by the `'\n'` that `WAL.Write` appends. -/
def encodeLines (us : List (List Nat)) : List Nat :=
  (us.map (fun u => u ++ [10])).flatten

/-- The slices `records[i:end]` taken by the replay loop of
`HealthMonitor.replayWAL` (`db/health_monitor.go`): contiguous chunks of at most
1000 records, in file order. -/
def chunks1000 : List WALRecord → List (List WALRecord)
  | [] => []
  | r :: rest => ((r :: rest).take 1000) :: chunks1000 ((r :: rest).drop 1000)
termination_by l => l.length
decreasing_by simp [List.length_drop]; omega

/-- The body of the replay loop: apply `insertWALRecords` (abstracted by the
transaction oracle `ok`) to each chunk in turn; a failing chunk aborts immediately,
leaving earlier chunks committed.  Returns the store contents and whether every
chunk committed. -/
def applyChunks (ok : List WALRecord → Bool) (store : List WALRecord) :
    List (List WALRecord) → List WALRecord × Bool
  | [] => (store, true)
  | c :: cs => if ok c then applyChunks ok (store ++ c) cs else (store, false)

/-- Result of one `HealthMonitor.replayWAL` run: the store rows, the WAL contents,
and whether `WAL.Clear()` was invoked. -/
structure ReplayResult where
  store : List WALRecord
  wal : List WALRecord
  cleared : Bool
deriving DecidableEq, Repr

/-- `HealthMonitor.replayWAL` from `db/health_monitor.go`: read all records; if none,
return; replay them in chunks of up to 1000 via single transactions; on any chunk
failure return without clearing; after all chunks commit, call `WAL.Clear()`. -/
def replayWAL (ok : List WALRecord → Bool) (store wal : List WALRecord) : ReplayResult :=
  if wal.isEmpty then
    { store := store, wal := wal, cleared := false }
  else
    let r := applyChunks ok store (chunks1000 wal)
    if r.2 then
      { store := r.1, wal := [], cleared := true }
    else
      { store := r.1, wal := wal, cleared := false }

/-- One call against the circuit breaker in a `RecordSuccess`/`RecordFailure`
call sequence (`failure` carries the instant stamped as the last-failure time). -/
inductive CBEvent where
  | success
  | failure (now : Int)
deriving DecidableEq, Repr

/-- Apply one recorded outcome to the breaker. -/
def applyEvent (cb : CircuitBreaker) : CBEvent → CircuitBreaker
  | CBEvent.success => recordSuccess cb
  | CBEvent.failure now => recordFailure cb now

/-- Apply a whole sequence of recorded outcomes, first event first. -/
def applyEvents (cb : CircuitBreaker) (evs : List CBEvent) : CircuitBreaker :=
  evs.foldl applyEvent cb

/-- Number of `RecordFailure` calls in a sequence of recorded outcomes. -/
def countFailures (evs : List CBEvent) : Nat :=
  evs.countP (fun e => match e with | CBEvent.failure _ => true | _ => false)

theorem recordSuccess_closed (cb : CircuitBreaker) (h : cb.state = CBState.Closed) :
    recordSuccess cb = cb := by
  simp [recordSuccess, h]

theorem applyEvent_open (cb : CircuitBreaker) (e : CBEvent)
    (h : cb.state = CBState.Open) : (applyEvent cb e).state = CBState.Open := by
  cases e with
  | success => simp [applyEvent, recordSuccess, h]
  | failure now => simp [applyEvent, recordFailure, h]

theorem applyEvents_open (evs : List CBEvent) : ∀ cb : CircuitBreaker,
    cb.state = CBState.Open → (applyEvents cb evs).state = CBState.Open := by
  induction evs with
  | nil => intro cb h; simpa [applyEvents] using h
  | cons e rest ih =>
      intro cb h
      have h₁ := applyEvent_open cb e h
      simpa [applyEvents, List.foldl_cons] using ih (applyEvent cb e) h₁

theorem recordFailure_threshold (cb : CircuitBreaker) (now : Int)
    (hs : cb.state = CBState.Closed) (hth : cb.failureThreshold ≤ cb.failureCount + 1) :
    (recordFailure cb now).state = CBState.Open := by
  simp [recordFailure, hs, hth]

theorem recordFailure_below (cb : CircuitBreaker) (now : Int)
    (hs : cb.state = CBState.Closed) (hth : ¬ cb.failureThreshold ≤ cb.failureCount + 1) :
    recordFailure cb now =
      { cb with failureCount := cb.failureCount + 1, lastFailureTime := now } := by
  simp [recordFailure, hs, hth]

theorem reach_open : ∀ (evs : List CBEvent) (cb : CircuitBreaker),
    cb.state = CBState.Closed →
    cb.failureThreshold ≤ cb.failureCount + (countFailures evs : Int) →
    1 ≤ countFailures evs →
    (applyEvents cb evs).state = CBState.Open := by
  intro evs
  induction evs with
  | nil => intro cb _ _ hone; simp [countFailures] at hone
  | cons e rest ih =>
      intro cb hs hth hone
      cases e with
      | success =>
          have hcnt : countFailures (CBEvent.success :: rest) = countFailures rest := by
            simp [countFailures]
          rw [show applyEvents cb (CBEvent.success :: rest)
                = applyEvents (recordSuccess cb) rest from rfl,
              recordSuccess_closed cb hs]
          exact ih cb hs (by rw [hcnt] at hth; exact hth) (by rw [hcnt] at hone; exact hone)
      | failure now =>
          have hstep : applyEvents cb (CBEvent.failure now :: rest)
              = applyEvents (recordFailure cb now) rest := rfl
          have hcnt : countFailures (CBEvent.failure now :: rest)
              = countFailures rest + 1 := by
            simp [countFailures]
          by_cases hth1 : cb.failureThreshold ≤ cb.failureCount + 1
          · rw [hstep]
            exact applyEvents_open rest _ (recordFailure_threshold cb now hs hth1)
          · rw [hstep, recordFailure_below cb now hs hth1]
            refine ih _ (by simpa using hs) ?_ ?_
            · show cb.failureThreshold ≤ cb.failureCount + 1 + (countFailures rest : Int)
              rw [hcnt] at hth
              push_cast at hth ⊢
              omega
            · rw [hcnt] at hth
              push_cast at hth
              omega

/-- Claim C7: the anomaly classifier is exactly the disjunction of the three strict
threshold comparisons, and a sample sitting exactly on all three thresholds is
classified non-anomalous. -/
theorem claim_C7_classifier_strict (cfg : AnomalyConfig) (point : TelemetryPoint) :
    (detectAnomaly cfg point = true ↔
      (point.batteryChargePercent < cfg.batteryMinPercent ∨
       cfg.storageMaxMB < point.storageUsageMB ∨
       point.signalStrengthDBM < cfg.signalMinDBM)) ∧
    (point.batteryChargePercent = cfg.batteryMinPercent →
     point.storageUsageMB = cfg.storageMaxMB →
     point.signalStrengthDBM = cfg.signalMinDBM →
     detectAnomaly cfg point = false) := by
  constructor
  · unfold detectAnomaly
    split_ifs with h1 h2 h3 <;> simp_all
  · intro hb hs hg
    unfold detectAnomaly
    rw [hb, hs, hg]
    simp

/-- Witness for C7: the boundary sample of scenario S3 (battery 10, storage 95000,
signal −100) against the default thresholds is not an anomaly. -/
theorem claim_C7_witness :
    detectAnomaly
      { batteryMinPercent := 10, storageMaxMB := 95000, signalMinDBM := -100 }
      { satelliteID := "SAT-03", batteryChargePercent := 10, storageUsageMB := 95000,
        signalStrengthDBM := -100, timestamp := 1, isAnomaly := false,
        latitude := none, longitude := none, altitudeKM := none, velocityKMPH := none }
      = false :=
  (claim_C7_classifier_strict _ _).2 rfl rfl rfl

/-- Claim C1 (code bug): `flushToWAL` copies only the six scalar fields into the
`WALRecord`, so a sample carrying all four position fields is appended to the WAL
with every position field absent — the values are dropped before the record ever
reaches the file, violating the required WAL round-trip preservation. -/
theorem claim_C1_flushToWAL_drops_position_fields :
    flushToWAL (some [])
      [{ satelliteID := "SAT-07", batteryChargePercent := 85, storageUsageMB := 45000,
         signalStrengthDBM := -55, timestamp := 5, isAnomaly := false,
         latitude := some 42, longitude := some 7, altitudeKM := some 550,
         velocityKMPH := some 27000 }]
    = (true,
       some [{ timestamp := 5, satelliteID := "SAT-07", batteryChargePercent := 85,
               storageUsageMB := 45000, signalStrengthDBM := -55, isAnomaly := false,
               latitude := none, longitude := none, altitudeKM := none,
               velocityKMPH := none }]) := by
  rfl

/-- Claim C4: the circuit breaker steps implement the transition table verbatim:
OPEN blocks before the recovery timeout and half-opens (resetting the in-flight
counter, returning true) once it has elapsed; HALF_OPEN admits exactly the first
`Allow`; `RecordSuccess` in HALF_OPEN closes the circuit zeroing the failure and
in-flight counters; `RecordFailure` in HALF_OPEN reopens stamping the failure time;
and with threshold 0 a single `RecordFailure` in CLOSED opens the circuit. -/
theorem claim_C4_breaker_transition_table :
    (∀ (cb : CircuitBreaker) (now : Int), cb.state = CBState.Open →
        now - cb.lastFailureTime < cb.timeout → allow cb now = (false, cb)) ∧
    (∀ (cb : CircuitBreaker) (now : Int), cb.state = CBState.Open →
        cb.timeout ≤ now - cb.lastFailureTime →
        allow cb now = (true, { cb with state := CBState.HalfOpen, halfOpenAttempts := 0 })) ∧
    (∀ (cb : CircuitBreaker) (now : Int), cb.state = CBState.HalfOpen →
        cb.halfOpenAttempts = 0 →
        allow cb now = (true, { cb with halfOpenAttempts := 1 })) ∧
    (∀ (cb : CircuitBreaker) (now : Int), cb.state = CBState.HalfOpen →
        1 ≤ cb.halfOpenAttempts → (allow cb now).1 = false) ∧
    (∀ cb : CircuitBreaker, cb.state = CBState.HalfOpen →
        recordSuccess cb = { cb with state := CBState.Closed, failureCount := 0,
                                     halfOpenAttempts := 0 }) ∧
    (∀ (cb : CircuitBreaker) (now : Int), cb.state = CBState.HalfOpen →
        recordFailure cb now =
          { cb with state := CBState.Open, failureCount := cb.failureCount + 1,
                    lastFailureTime := now, halfOpenAttempts := 0 }) ∧
    (∀ (cb : CircuitBreaker) (now : Int), cb.state = CBState.Closed →
        cb.failureThreshold = 0 → 0 ≤ cb.failureCount →
        (recordFailure cb now).state = CBState.Open) := by
  refine ⟨?_, ?_, ?_, ?_, ?_, ?_, ?_⟩
  · intro cb now h1 h2
    simp [allow, h1, show ¬ cb.timeout ≤ now - cb.lastFailureTime from not_le.2 h2]
  · intro cb now h1 h2
    simp [allow, h1, h2]
  · intro cb now h1 h2
    simp [allow, h1, h2]
  · intro cb now h1 h2
    have hlt : (1 : Int) < cb.halfOpenAttempts + 1 := by omega
    simp [allow, h1, hlt]
  · intro cb h1
    simp [recordSuccess, h1]
  · intro cb now h1
    simp [recordFailure, h1]
  · intro cb now h1 h2 h3
    have hth : cb.failureThreshold ≤ cb.failureCount + 1 := by omega
    exact recordFailure_threshold cb now h1 hth

/-- Witness for C4: a breaker that opened at instant 0 with a 30-unit timeout
half-opens (and lets the probe through) when consulted at instant 50. -/
theorem claim_C4_witness :
    allow { state := CBState.Open, failureCount := 3, failureThreshold := 3,
            lastFailureTime := 0, timeout := 30, halfOpenAttempts := 0 } 50
    = (true, { state := CBState.HalfOpen, failureCount := 3, failureThreshold := 3,
               lastFailureTime := 0, timeout := 30, halfOpenAttempts := 0 }) :=
  claim_C4_breaker_transition_table.2.1 _ 50 rfl (by decide)

/-- Claim C9, counterexample: with the degenerate threshold T = 0 the sequence
consisting of a single `RecordSuccess` call contains exactly T `RecordFailure`
calls, yet the breaker ends CLOSED, not OPEN — so the claim fails for T = 0. -/
theorem claim_C9_counterexample :
    (newCircuitBreaker 0 30).state = CBState.Closed ∧
    (countFailures [CBEvent.success] : Int) = (newCircuitBreaker 0 30).failureThreshold ∧
    ¬ (applyEvents (newCircuitBreaker 0 30) [CBEvent.success]).state = CBState.Open := by
  refine ⟨rfl, rfl, ?_⟩
  decide

/-- Claim C9 as amended: `RecordSuccess` in CLOSED is a complete no-op, and for any
threshold T ≥ 1, any sequence containing T `RecordFailure` calls — with any number
of `RecordSuccess` calls interleaved — drives a fresh breaker from CLOSED to OPEN. -/
theorem claim_C9_nonconsecutive_failures (T timeout : Int) (evs : List CBEvent)
    (hT : 1 ≤ T) (hcount : (countFailures evs : Int) = T) :
    (applyEvents (newCircuitBreaker T timeout) evs).state = CBState.Open ∧
    (∀ cb : CircuitBreaker, cb.state = CBState.Closed → recordSuccess cb = cb) := by
  constructor
  · refine reach_open evs (newCircuitBreaker T timeout) rfl ?_ ?_
    · simp [newCircuitBreaker, hcount]
    · omega
  · intro cb h
    exact recordSuccess_closed cb h

/-- Witness for C9's amended statement: threshold 1, one interleaved success, one
failure — the breaker ends OPEN. -/
theorem claim_C9_witness :
    (applyEvents (newCircuitBreaker 1 30) [CBEvent.success, CBEvent.failure 5]).state
      = CBState.Open :=
  (claim_C9_nonconsecutive_failures 1 30 [CBEvent.success, CBEvent.failure 5]
    (by decide) (by decide)).1

theorem Add_maxBufferSize (bp : BatchProcessor) (p : TelemetryPoint) :
    (Add bp p).1.maxBufferSize = bp.maxBufferSize := by
  unfold Add
  split <;> rfl

/-- `Add` either rejects (buffer full) leaving the processor untouched, or accepts,
appending exactly the classified point. -/
theorem Add_cases (bp : BatchProcessor) (p : TelemetryPoint) :
    ((Add bp p).2 = some "buffer at maximum capacity" ∧ (Add bp p).1 = bp) ∨
    ((Add bp p).2 = none ∧
      (Add bp p).1 = { bp with buffer :=
        bp.buffer ++ [{ p with isAnomaly := detectAnomaly bp.anomalyConfig p }] }) := by
  unfold Add
  split_ifs <;> simp

theorem Add_length_le (bp : BatchProcessor) (p : TelemetryPoint)
    (h : (bp.buffer.length : Int) ≤ bp.maxBufferSize) :
    ((Add bp p).1.buffer.length : Int) ≤ bp.maxBufferSize := by
  unfold Add
  split_ifs with hfull
  · simpa using h
  · simp
    omega

theorem addSeq_bound (B : Int) : ∀ (points : List TelemetryPoint) (bp : BatchProcessor),
    bp.maxBufferSize = B → (bp.buffer.length : Int) ≤ B →
    ∀ bp' ∈ addSeq bp points, (bp'.buffer.length : Int) ≤ B := by
  intro points
  induction points with
  | nil =>
      intro bp hB h bp' hmem
      simp only [addSeq, List.mem_singleton] at hmem
      subst hmem
      exact h
  | cons p ps ih =>
      intro bp hB h bp' hmem
      simp only [addSeq, List.mem_cons] at hmem
      cases hmem with
      | inl he => subst he; exact h
      | inr hm =>
          refine ih (Add bp p).1 ?_ ?_ bp' hm
          · rw [Add_maxBufferSize]; exact hB
          · have h₁ := Add_length_le bp p (by rw [hB]; exact h)
            rw [hB] at h₁
            exact h₁

/-- Claim C2: a full buffer rejects the admission with the "buffer full" error and
an unchanged processor, and along any sequence of `Add` calls starting within
capacity the buffer length stays between 0 and `maxBufferSize` at every observable
point. -/
theorem claim_C2_admission_bound :
    (∀ (bp : BatchProcessor) (point : TelemetryPoint),
        bp.maxBufferSize ≤ (bp.buffer.length : Int) →
        Add bp point = (bp, some "buffer at maximum capacity")) ∧
    (∀ (bp : BatchProcessor) (points : List TelemetryPoint),
        (bp.buffer.length : Int) ≤ bp.maxBufferSize →
        ∀ bp' ∈ addSeq bp points,
          0 ≤ (bp'.buffer.length : Int) ∧ (bp'.buffer.length : Int) ≤ bp.maxBufferSize) := by
  constructor
  · intro bp point h
    simp [Add, h]
  · intro bp points h bp' hmem
    exact ⟨Int.natCast_nonneg _, addSeq_bound bp.maxBufferSize points bp rfl h bp' hmem⟩

/-- Witness for C2: a processor whose capacity is already used up (capacity 0,
empty buffer) rejects the admission and is returned unchanged. -/
theorem claim_C2_witness :
    Add { batchSize := 10, buffer := [],
          anomalyConfig := { batteryMinPercent := 10, storageMaxMB := 95000,
                             signalMinDBM := -100 },
          maxBufferSize := 0 }
        { satelliteID := "SAT-01", batteryChargePercent := 85, storageUsageMB := 45000,
          signalStrengthDBM := -55, timestamp := 1, isAnomaly := false,
          latitude := none, longitude := none, altitudeKM := none, velocityKMPH := none }
    = ({ batchSize := 10, buffer := [],
         anomalyConfig := { batteryMinPercent := 10, storageMaxMB := 95000,
                            signalMinDBM := -100 },
         maxBufferSize := 0 }, some "buffer at maximum capacity") :=
  claim_C2_admission_bound.1 _ _ (by decide)

theorem handleBatchLoop_count (now : Int) :
    ∀ (ps : List TelemetryPoint) (bp : BatchProcessor) (count : Int),
    (handleBatchLoop now ps bp count).2 + (bp.buffer.length : Int) =
      count + ((handleBatchLoop now ps bp count).1.buffer.length : Int) := by
  intro ps
  induction ps with
  | nil => intro bp count; simp [handleBatchLoop]
  | cons p ps ih =>
      intro bp count
      simp only [handleBatchLoop]
      rcases Add_cases bp (if p.timestamp = 0 then { p with timestamp := now } else p) with
        ⟨h2, h1⟩ | ⟨h2, h1⟩
      · simp only [h2, h1]
        exact ih bp count
      · simp only [h2]
        have h3 := ih
          (Add bp (if p.timestamp = 0 then { p with timestamp := now } else p)).1 (count + 1)
        have h4 : (Add bp (if p.timestamp = 0 then { p with timestamp := now } else p)).1.buffer.length
            = bp.buffer.length + 1 := by
          rw [h1]; simp
        rw [h4] at h3
        push_cast at h3 ⊢
        omega

/-- Claim C10: after a successful JSON bind, the batch endpoint always answers 202
(never a buffer-full 503), and the returned count is exactly the number of samples
that `Add` actually admitted (the growth of the buffer); rejected samples are
skipped and processing continues. -/
theorem claim_C10_batch_endpoint_total (now : Int) (bp : BatchProcessor)
    (points : List TelemetryPoint) :
    (handleTelemetryBatch now bp points).1 = 202 ∧
    (handleTelemetryBatch now bp points).2.1 =
      ((handleTelemetryBatch now bp points).2.2.buffer.length : Int)
        - (bp.buffer.length : Int) := by
  constructor
  · rfl
  · have h := handleBatchLoop_count now points bp 0
    simp only [handleTelemetryBatch]
    omega

theorem assigned_ts_ne (now : Int) (hnow : now ≠ 0) (p : TelemetryPoint) :
    (if p.timestamp = 0 then { p with timestamp := now } else p).timestamp ≠ 0 := by
  split_ifs with h
  · simpa using hnow
  · exact h

theorem handleTelemetry_state (now : Int) (bp : BatchProcessor) (point : TelemetryPoint) :
    (handleTelemetry now bp point).2 =
      (Add bp (if point.timestamp = 0 then { point with timestamp := now } else point)).1 := by
  unfold handleTelemetry
  rcases Add_cases bp (if point.timestamp = 0 then { point with timestamp := now } else point)
    with ⟨h2, _⟩ | ⟨h2, _⟩ <;> simp [h2]

theorem handleBatchLoop_ts (now : Int) (hnow : now ≠ 0) :
    ∀ (ps : List TelemetryPoint) (bp : BatchProcessor) (count : Int),
      (∀ q ∈ bp.buffer, q.timestamp ≠ 0) →
      ∀ q ∈ (handleBatchLoop now ps bp count).1.buffer, q.timestamp ≠ 0 := by
  intro ps
  induction ps with
  | nil => intro bp count h q hq; exact h q hq
  | cons p ps ih =>
      intro bp count h
      simp only [handleBatchLoop]
      rcases Add_cases bp (if p.timestamp = 0 then { p with timestamp := now } else p) with
        ⟨h2, h1⟩ | ⟨h2, h1⟩
      · simp only [h2, h1]
        exact ih bp count h
      · simp only [h2]
        refine ih _ (count + 1) ?_
        rw [h1]
        intro q hq
        simp only [List.mem_append, List.mem_singleton] at hq
        rcases hq with hq | hq
        · exact h q hq
        · subst hq
          exact assigned_ts_ne now hnow p

/-- Claim C8: on admission through the telemetry handlers, an unset (zero)
timestamp is replaced by the current instant before the sample is classified and
enqueued; consequently, when the current instant is nonzero, no sample with a zero
timestamp is ever enqueued by either handler, and the records derived from such a
buffer for the store batch or the WAL fallback never carry a zero timestamp. -/
theorem claim_C8_timestamp_assigned_on_admission :
    (∀ (now : Int) (bp : BatchProcessor) (point : TelemetryPoint),
        point.timestamp = 0 →
        ¬ bp.maxBufferSize ≤ (bp.buffer.length : Int) →
        (handleTelemetry now bp point).2.buffer =
          bp.buffer ++ [{ point with
                            timestamp := now,
                            isAnomaly := detectAnomaly bp.anomalyConfig
                              ({ point with timestamp := now }) }]) ∧
    (∀ (now : Int) (bp : BatchProcessor) (point : TelemetryPoint),
        now ≠ 0 → (∀ q ∈ bp.buffer, q.timestamp ≠ 0) →
        ∀ q ∈ (handleTelemetry now bp point).2.buffer, q.timestamp ≠ 0) ∧
    (∀ (now : Int) (bp : BatchProcessor) (points : List TelemetryPoint),
        now ≠ 0 → (∀ q ∈ bp.buffer, q.timestamp ≠ 0) →
        ∀ q ∈ (handleTelemetryBatch now bp points).2.2.buffer, q.timestamp ≠ 0) ∧
    (∀ batch : List TelemetryPoint, (∀ q ∈ batch, q.timestamp ≠ 0) →
        ∀ r ∈ batch.map toWALRecord, r.timestamp ≠ 0) := by
  refine ⟨?_, ?_, ?_, ?_⟩
  · intro now bp point hts hfull
    rw [handleTelemetry_state]
    rcases Add_cases bp (if point.timestamp = 0 then { point with timestamp := now } else point)
      with ⟨_, h1⟩ | ⟨_, h1⟩
    · exfalso
      revert h1
      unfold Add
      rw [if_neg hfull]
      intro h1
      simpa using congrArg (fun bp₁ => bp₁.buffer.length) h1
    · rw [h1]
      simp [hts]
  · intro now bp point hnow h q hq
    rw [handleTelemetry_state] at hq
    rcases Add_cases bp (if point.timestamp = 0 then { point with timestamp := now } else point)
      with ⟨_, h1⟩ | ⟨_, h1⟩
    · rw [h1] at hq
      exact h q hq
    · rw [h1] at hq
      simp only [List.mem_append, List.mem_singleton] at hq
      rcases hq with hq | hq
      · exact h q hq
      · subst hq
        exact assigned_ts_ne now hnow point
  · intro now bp points hnow h q hq
    exact handleBatchLoop_ts now hnow points bp 0 h q hq
  · intro batch h r hr
    simp only [List.mem_map] at hr
    obtain ⟨q, hq, hval⟩ := hr
    subst hval
    exact h q hq

/-- Witness for C8: admitting a sample with an unset timestamp at instant 7 into an
empty processor enqueues it with timestamp 7. -/
theorem claim_C8_witness :
    (handleTelemetry 7
      { batchSize := 10, buffer := [],
        anomalyConfig := { batteryMinPercent := 10, storageMaxMB := 95000,
                           signalMinDBM := -100 },
        maxBufferSize := 100 }
      { satelliteID := "SAT-01", batteryChargePercent := 85, storageUsageMB := 45000,
        signalStrengthDBM := -55, timestamp := 0, isAnomaly := false,
        latitude := none, longitude := none, altitudeKM := none,
        velocityKMPH := none }).2.buffer =
      [{ satelliteID := "SAT-01", batteryChargePercent := 85, storageUsageMB := 45000,
         signalStrengthDBM := -55, timestamp := 7, isAnomaly := false,
         latitude := none, longitude := none, altitudeKM := none,
         velocityKMPH := none }] := by
  have h := claim_C8_timestamp_assigned_on_admission.1 7
    { batchSize := 10, buffer := [],
      anomalyConfig := { batteryMinPercent := 10, storageMaxMB := 95000,
                         signalMinDBM := -100 },
      maxBufferSize := 100 }
    { satelliteID := "SAT-01", batteryChargePercent := 85, storageUsageMB := 45000,
      signalStrengthDBM := -55, timestamp := 0, isAnomaly := false,
      latitude := none, longitude := none, altitudeKM := none, velocityKMPH := none }
    rfl (by decide)
  rw [h]
  rfl

theorem chunks1000_flatten (l : List WALRecord) : (chunks1000 l).flatten = l := by
  induction l using chunks1000.induct with
  | case1 => simp [chunks1000]
  | case2 r rest ih =>
      rw [chunks1000]
      simp only [List.flatten_cons, ih, List.take_append_drop]

theorem chunks1000_mem (l : List WALRecord) :
    ∀ c ∈ chunks1000 l, c.length ≤ 1000 ∧ c ≠ [] := by
  induction l using chunks1000.induct with
  | case1 => simp [chunks1000]
  | case2 r rest ih =>
      rw [chunks1000]
      intro c hc
      rcases List.mem_cons.1 hc with h | h
      · subst h
        refine ⟨List.length_take_le 1000 (r :: rest), ?_⟩
        simp [List.take_eq_nil_iff]
      · exact ih c h

theorem applyChunks_eq (ok : List WALRecord → Bool) :
    ∀ (cs : List (List WALRecord)) (store : List WALRecord),
      applyChunks ok store cs =
        (store ++ ((cs.takeWhile ok).flatten), cs.all ok) := by
  intro cs
  induction cs with
  | nil => intro store; simp [applyChunks]
  | cons c cs ih =>
      intro store
      by_cases h : ok c
      · simp [applyChunks, h, ih, List.takeWhile_cons, List.append_assoc]
      · simp [applyChunks, h, List.takeWhile_cons]

/-- Claim C3: `replayWAL` partitions the WAL's records, in file order, into
contiguous nonempty sub-batches of at most 1000; when every sub-batch transaction
commits (and the WAL is nonempty) it appends all records to the store in order and
clears the WAL; when any sub-batch fails it stops at the first failure — only the
sub-batches before it are committed — and leaves the WAL exactly as it was, with
`clear` not invoked; an empty WAL is left alone. -/
theorem claim_C3_replay_subbatches (ok : List WALRecord → Bool)
    (store wal : List WALRecord) :
    ((chunks1000 wal).flatten = wal ∧
      ∀ c ∈ chunks1000 wal, c.length ≤ 1000 ∧ c ≠ []) ∧
    (wal ≠ [] → (chunks1000 wal).all ok = true →
      replayWAL ok store wal = { store := store ++ wal, wal := [], cleared := true }) ∧
    ((chunks1000 wal).all ok = false →
      replayWAL ok store wal =
        { store := store ++ (((chunks1000 wal).takeWhile ok).flatten), wal := wal,
          cleared := false }) ∧
    (replayWAL ok store [] = { store := store, wal := [], cleared := false }) := by
  refine ⟨⟨chunks1000_flatten wal, chunks1000_mem wal⟩, ?_, ?_, ?_⟩
  · intro hne hall
    have hemp : wal.isEmpty = false := by
      cases wal with
      | nil => exact absurd rfl hne
      | cons a l => rfl
    have htw : (chunks1000 wal).takeWhile ok = chunks1000 wal := by
      rw [List.takeWhile_eq_self_iff]
      intro c hc
      exact (List.all_eq_true.1 hall) c hc
    simp only [replayWAL, hemp, Bool.false_eq_true, if_false, applyChunks_eq, hall, if_true,
      htw, chunks1000_flatten]
  · intro hall
    have hne : wal ≠ [] := by
      intro h
      subst h
      simp [chunks1000] at hall
    have hemp : wal.isEmpty = false := by
      cases wal with
      | nil => exact absurd rfl hne
      | cons a l => rfl
    simp only [replayWAL, hemp, Bool.false_eq_true, if_false, applyChunks_eq, hall]
  · simp [replayWAL]

/-- A concrete WAL record used by the witnesses below. -/
def walA : WALRecord :=
  { timestamp := 1, satelliteID := "SAT-A", batteryChargePercent := 80,
    storageUsageMB := 40000, signalStrengthDBM := -50, isAnomaly := false,
    latitude := none, longitude := none, altitudeKM := none, velocityKMPH := none }

theorem chunks1000_single : chunks1000 [walA] = [[walA]] := by
  rw [chunks1000]
  rw [List.take_of_length_le (by simp), List.drop_eq_nil_of_le (by simp)]
  rw [chunks1000]

/-- Witness for C3: a one-record WAL whose single sub-batch transaction succeeds is
fully replayed into the store and cleared. -/
theorem claim_C3_witness :
    replayWAL (fun _ => true) [] [walA]
      = { store := [walA], wal := [], cleared := true } := by
  have h := (claim_C3_replay_subbatches (fun _ => true) [] [walA]).2.1
    (by simp) (by rw [chunks1000_single]; rfl)
  rw [List.nil_append] at h
  exact h

theorem splitLinesAux_no_nl : ∀ (l cur : List Nat), (10 ∈ l → False) →
    splitLinesAux cur l = if cur ++ l = [] then [] else [cur ++ l] := by
  intro l
  induction l with
  | nil => intro cur h; simp [splitLinesAux]
  | cons b rest ih =>
      intro cur h
      have hb : ¬ b = 10 := fun hb => h (by simp [hb])
      have hr : 10 ∈ rest → False := fun hm => h (by simp [hm])
      simp only [splitLinesAux, if_neg hb]
      rw [ih (cur ++ [b]) hr]
      have hev : (cur ++ [b]) ++ rest = cur ++ b :: rest := by simp
      rw [hev]

theorem splitLinesAux_unit : ∀ (u cur rest : List Nat), (10 ∈ u → False) →
    splitLinesAux cur (u ++ 10 :: rest) = (cur ++ u) :: splitLinesAux [] rest := by
  intro u
  induction u with
  | nil => intro cur rest _; simp [splitLinesAux]
  | cons b u ih =>
      intro cur rest h
      have hb : ¬ b = 10 := fun hb => h (by simp [hb])
      have hu : 10 ∈ u → False := fun hm => h (by simp [hm])
      simp only [List.cons_append, splitLinesAux, if_neg hb, List.append_eq]
      rw [ih (cur ++ [b]) rest hu]
      have hev : (cur ++ [b]) ++ u = cur ++ b :: u := by simp
      rw [hev]

theorem splitLines_encode : ∀ (us : List (List Nat)) (t : List Nat),
    (∀ u ∈ us, 10 ∈ u → False) → (10 ∈ t → False) → t ≠ [] →
    splitLines (encodeLines us ++ t) = us ++ [t] := by
  intro us
  induction us with
  | nil =>
      intro t _ ht htne
      show splitLinesAux [] (encodeLines [] ++ t) = [] ++ [t]
      rw [show encodeLines [] ++ t = t from by simp [encodeLines]]
      rw [splitLinesAux_no_nl t [] ht]
      simp [htne]
  | cons u us ih =>
      intro t hus ht htne
      have hu : 10 ∈ u → False := hus u (by simp)
      have hrest : ∀ v ∈ us, 10 ∈ v → False := fun v hv => hus v (by simp [hv])
      have henc : encodeLines (u :: us) ++ t = u ++ 10 :: (encodeLines us ++ t) := by
        simp [encodeLines]
      show splitLinesAux [] (encodeLines (u :: us) ++ t) = (u :: us) ++ [t]
      rw [henc, splitLinesAux_unit u [] _ hu]
      have htail := ih t hrest ht htne
      show ([] ++ u) :: splitLinesAux [] (encodeLines us ++ t) = (u :: us) ++ [t]
      rw [show splitLinesAux [] (encodeLines us ++ t) = splitLines (encodeLines us ++ t) from rfl,
        htail]
      simp

theorem readAll_foldl (parse : List Nat → Option WALRecord) :
    ∀ (ls : List (List Nat)) (acc : List WALRecord),
    ls.foldl (fun records line => if line.length = 0 then records else
      match parse line with
      | some record => records ++ [record]
      | none => records) acc
    = acc ++ ls.filterMap (fun line => if line.length = 0 then none else parse line) := by
  intro ls
  induction ls with
  | nil => intro acc; simp
  | cons l ls ih =>
      intro acc
      simp only [List.foldl_cons, List.filterMap_cons]
      by_cases h : l.length = 0
      · rw [if_pos h, if_pos h]
        exact ih acc
      · rw [if_neg h, if_neg h]
        rcases hp : parse l with _ | r
        · dsimp only
          exact ih acc
        · dsimp only
          rw [ih (acc ++ [r])]
          simp

/-- Claim C6: if the WAL file consists of completely written newline-terminated
units followed by a truncated tail that fails to parse, `ReadAll` returns, without
error, exactly the units that parse, in file order — the corrupt tail and any
corrupt unit are skipped and no parseable record is lost. -/
theorem claim_C6_readAll_truncated_tail (parse : List Nat → Option WALRecord)
    (us : List (List Nat)) (t : List Nat)
    (hus10 : ∀ u ∈ us, 10 ∈ u → False) (husne : ∀ u ∈ us, u ≠ [])
    (ht10 : 10 ∈ t → False) (htne : t ≠ []) (htparse : parse t = none) :
    readAll parse (encodeLines us ++ t) = us.filterMap parse := by
  unfold readAll
  rw [splitLines_encode us t hus10 ht10 htne, readAll_foldl]
  have hlast : List.filterMap
      (fun line => if line.length = 0 then none else parse line) [t] = [] := by
    simp only [List.filterMap_cons, List.filterMap_nil]
    rw [if_neg (by simpa [List.length_eq_zero] using htne), htparse]
  rw [List.filterMap_append, hlast, List.append_nil, List.nil_append]
  refine List.filterMap_congr ?_
  intro u hu
  rw [if_neg (by simpa [List.length_eq_zero] using husne u hu)]

/-- Witness for C6: two complete units — one parseable, one corrupt — followed by a
truncated tail: `ReadAll` returns exactly the one parseable record. -/
theorem claim_C6_witness :
    readAll (fun l => if l = [65] then some walA else none)
        (encodeLines [[65], [66]] ++ [67])
      = [walA] := by
  have h := claim_C6_readAll_truncated_tail (fun l => if l = [65] then some walA else none)
    [[65], [66]] [67] (by decide) (by decide) (by decide) (by decide) (by simp)
  rw [h]
  simp

theorem flushAux_denied (retryDelay : ℚ) (maxRetries : Nat) (env : FlushEnv)
    (batch : List TelemetryPoint) (k : Nat) (s : FlushState)
    (hk : k < maxRetries) (hdeny : (allow s.cb (env.now k)).1 = false) :
    flushWithRetryAux retryDelay maxRetries env batch k s =
      ((flushToWAL s.wal batch).1,
        { s with cb := (allow s.cb (env.now k)).2,
                 wal := (flushToWAL s.wal batch).2 }) := by
  rw [flushWithRetryAux, dif_pos hk]
  simp only [hdeny, Bool.false_eq_true, if_false]

theorem flushAux_success (retryDelay : ℚ) (maxRetries : Nat) (env : FlushEnv)
    (batch : List TelemetryPoint) (k : Nat) (s : FlushState)
    (hk : k < maxRetries) (hallow : (allow s.cb (env.now k)).1 = true)
    (hok : env.insertOk k = true) :
    flushWithRetryAux retryDelay maxRetries env batch k s =
      (true, { s with cb := recordSuccess (allow s.cb (env.now k)).2,
                      store := s.store ++ batch,
                      insertTries := s.insertTries + 1 }) := by
  rw [flushWithRetryAux, dif_pos hk]
  simp only [hallow, if_true, hok]

theorem flushAux_fail_sleep (retryDelay : ℚ) (maxRetries : Nat) (env : FlushEnv)
    (batch : List TelemetryPoint) (k : Nat) (s : FlushState)
    (hk : k < maxRetries) (hallow : (allow s.cb (env.now k)).1 = true)
    (hok : env.insertOk k = false) (hmore : k < maxRetries - 1) :
    flushWithRetryAux retryDelay maxRetries env batch k s =
      flushWithRetryAux retryDelay maxRetries env batch (k + 1)
        { s with cb := recordFailure (allow s.cb (env.now k)).2 (env.now k),
                 insertTries := s.insertTries + 1,
                 sleeps := s.sleeps ++
                   [retryDelay * 2 ^ k +
                    retryDelay * 2 ^ k * (1 / 5) * (2 * env.rand k - 1)] } := by
  rw [flushWithRetryAux, dif_pos hk]
  simp only [hallow, if_true, hok, Bool.false_eq_true, if_false]
  rw [if_pos hmore]

theorem flushAux_fail_last (retryDelay : ℚ) (maxRetries : Nat) (env : FlushEnv)
    (batch : List TelemetryPoint) (k : Nat) (s : FlushState)
    (hk : k < maxRetries) (hallow : (allow s.cb (env.now k)).1 = true)
    (hok : env.insertOk k = false) (hmore : ¬ k < maxRetries - 1) :
    flushWithRetryAux retryDelay maxRetries env batch k s =
      flushWithRetryAux retryDelay maxRetries env batch (k + 1)
        { s with cb := recordFailure (allow s.cb (env.now k)).2 (env.now k),
                 insertTries := s.insertTries + 1 } := by
  rw [flushWithRetryAux, dif_pos hk]
  simp only [hallow, if_true, hok, Bool.false_eq_true, if_false]
  rw [if_neg hmore]

theorem flushAux_exhausted (retryDelay : ℚ) (maxRetries : Nat) (env : FlushEnv)
    (batch : List TelemetryPoint) (k : Nat) (s : FlushState)
    (hk : ¬ k < maxRetries) :
    flushWithRetryAux retryDelay maxRetries env batch k s =
      ((flushToWAL s.wal batch).1, { s with wal := (flushToWAL s.wal batch).2 }) := by
  rw [flushWithRetryAux, dif_neg hk]

theorem flushAux_outcome (retryDelay : ℚ) (maxRetries : Nat) (env : FlushEnv)
    (batch : List TelemetryPoint) :
    ∀ (n k : Nat) (s : FlushState), maxRetries - k ≤ n →
      ((flushWithRetryAux retryDelay maxRetries env batch k s).1 = true ∧
       (flushWithRetryAux retryDelay maxRetries env batch k s).2.store = s.store ++ batch ∧
       (flushWithRetryAux retryDelay maxRetries env batch k s).2.wal = s.wal) ∨
      ((flushWithRetryAux retryDelay maxRetries env batch k s).2.store = s.store ∧
       (flushWithRetryAux retryDelay maxRetries env batch k s).2.wal
          = (flushToWAL s.wal batch).2 ∧
       (flushWithRetryAux retryDelay maxRetries env batch k s).1
          = (flushToWAL s.wal batch).1) := by
  intro n
  induction n with
  | zero =>
      intro k s hn
      have hk : ¬ k < maxRetries := by omega
      rw [flushAux_exhausted retryDelay maxRetries env batch k s hk]
      exact Or.inr ⟨rfl, rfl, rfl⟩
  | succ n ih =>
      intro k s hn
      by_cases hk : k < maxRetries
      · by_cases hal : (allow s.cb (env.now k)).1 = true
        · by_cases hok : env.insertOk k = true
          · rw [flushAux_success retryDelay maxRetries env batch k s hk hal hok]
            exact Or.inl ⟨rfl, rfl, rfl⟩
          · have hok' : env.insertOk k = false := by
              revert hok; cases env.insertOk k <;> simp
            by_cases hmore : k < maxRetries - 1
            · rw [flushAux_fail_sleep retryDelay maxRetries env batch k s hk hal hok' hmore]
              have hrec := ih (k + 1)
                { s with cb := recordFailure (allow s.cb (env.now k)).2 (env.now k),
                         insertTries := s.insertTries + 1,
                         sleeps := s.sleeps ++
                           [retryDelay * 2 ^ k +
                            retryDelay * 2 ^ k * (1 / 5) * (2 * env.rand k - 1)] }
                (by omega)
              exact hrec
            · rw [flushAux_fail_last retryDelay maxRetries env batch k s hk hal hok' hmore]
              have hrec := ih (k + 1)
                { s with cb := recordFailure (allow s.cb (env.now k)).2 (env.now k),
                         insertTries := s.insertTries + 1 }
                (by omega)
              exact hrec
        · have hal' : (allow s.cb (env.now k)).1 = false := by
            revert hal; cases (allow s.cb (env.now k)).1 <;> simp
          rw [flushAux_denied retryDelay maxRetries env batch k s hk hal']
          exact Or.inr ⟨rfl, rfl, rfl⟩
      · rw [flushAux_exhausted retryDelay maxRetries env batch k s hk]
        exact Or.inr ⟨rfl, rfl, rfl⟩

theorem flushAux_sleeps (retryDelay : ℚ) (maxRetries : Nat) (env : FlushEnv)
    (batch : List TelemetryPoint) (hd : 0 ≤ retryDelay)
    (hr : ∀ j, 0 ≤ env.rand j ∧ env.rand j ≤ 1) :
    ∀ (n k : Nat) (s : FlushState), maxRetries - k ≤ n →
      ∀ d ∈ (flushWithRetryAux retryDelay maxRetries env batch k s).2.sleeps,
        d ∈ s.sleeps ∨ ∃ j, j + 1 < maxRetries ∧
          |d - retryDelay * 2 ^ j| ≤ retryDelay * 2 ^ j * (1 / 5) := by
  intro n
  induction n with
  | zero =>
      intro k s hn d hm
      have hk : ¬ k < maxRetries := by omega
      rw [flushAux_exhausted retryDelay maxRetries env batch k s hk] at hm
      exact Or.inl hm
  | succ n ih =>
      intro k s hn d hm
      by_cases hk : k < maxRetries
      · by_cases hal : (allow s.cb (env.now k)).1 = true
        · by_cases hok : env.insertOk k = true
          · rw [flushAux_success retryDelay maxRetries env batch k s hk hal hok] at hm
            exact Or.inl hm
          · have hok' : env.insertOk k = false := by
              revert hok; cases env.insertOk k <;> simp
            by_cases hmore : k < maxRetries - 1
            · rw [flushAux_fail_sleep retryDelay maxRetries env batch k s hk hal hok' hmore]
                at hm
              have hrec := ih (k + 1)
                { s with cb := recordFailure (allow s.cb (env.now k)).2 (env.now k),
                         insertTries := s.insertTries + 1,
                         sleeps := s.sleeps ++
                           [retryDelay * 2 ^ k +
                            retryDelay * 2 ^ k * (1 / 5) * (2 * env.rand k - 1)] }
                (by omega) d hm
              rcases hrec with hin | hex
              · have hin' : d ∈ s.sleeps ++
                    [retryDelay * 2 ^ k +
                     retryDelay * 2 ^ k * (1 / 5) * (2 * env.rand k - 1)] := hin
                rcases List.mem_append.1 hin' with hin2 | hin2
                · exact Or.inl hin2
                · have hdx : d = retryDelay * 2 ^ k +
                      retryDelay * 2 ^ k * (1 / 5) * (2 * env.rand k - 1) := by
                    simpa using hin2
                  refine Or.inr ⟨k, by omega, ?_⟩
                  have hjit : d - retryDelay * 2 ^ k =
                      retryDelay * 2 ^ k * (1 / 5) * (2 * env.rand k - 1) := by
                    rw [hdx]; ring
                  rw [hjit]
                  have hnn : (0 : ℚ) ≤ retryDelay * 2 ^ k * (1 / 5) := by positivity
                  have habs : |2 * env.rand k - 1| ≤ 1 := by
                    rcases hr k with ⟨h0, h1⟩
                    rw [abs_le]
                    constructor <;> linarith
                  calc |retryDelay * 2 ^ k * (1 / 5) * (2 * env.rand k - 1)|
                      = retryDelay * 2 ^ k * (1 / 5) * |2 * env.rand k - 1| := by
                        rw [abs_mul, abs_of_nonneg hnn]
                    _ ≤ retryDelay * 2 ^ k * (1 / 5) * 1 :=
                        mul_le_mul_of_nonneg_left habs hnn
                    _ = retryDelay * 2 ^ k * (1 / 5) := by ring
              · exact Or.inr hex
            · rw [flushAux_fail_last retryDelay maxRetries env batch k s hk hal hok' hmore]
                at hm
              have hrec := ih (k + 1)
                { s with cb := recordFailure (allow s.cb (env.now k)).2 (env.now k),
                         insertTries := s.insertTries + 1 }
                (by omega) d hm
              exact hrec
        · have hal' : (allow s.cb (env.now k)).1 = false := by
            revert hal; cases (allow s.cb (env.now k)).1 <;> simp
          rw [flushAux_denied retryDelay maxRetries env batch k s hk hal'] at hm
          exact Or.inl hm
      · rw [flushAux_exhausted retryDelay maxRetries env batch k s hk] at hm
        exact Or.inl hm

/-- Claim C5: `flushWithRetry` follows the specified algorithm step by step: at
each attempt `k < maxRetries` a breaker denial goes straight to the WAL fallback
without attempting the store and without consuming further retries; a successful
transaction records success with the breaker, commits the whole batch, and
returns; a failed attempt records failure and, when another attempt remains,
sleeps `retryDelay·2^k` plus a jitter, then continues at `k+1`; exhausting the
loop falls back to the WAL.  Globally, every run either commits the batch exactly
once leaving the WAL alone, or appends the whole batch to the WAL in order; and
every sleep of a run equals `retryDelay·2^j` (for some non-final attempt `j`) up
to a jitter of magnitude at most one fifth of that delay. -/
theorem claim_C5_flush_with_retry (retryDelay : ℚ) (maxRetries : Nat) (env : FlushEnv)
    (batch : List TelemetryPoint) :
    (∀ (k : Nat) (s : FlushState), k < maxRetries →
        (allow s.cb (env.now k)).1 = false →
        flushWithRetryAux retryDelay maxRetries env batch k s =
          ((flushToWAL s.wal batch).1,
            { s with cb := (allow s.cb (env.now k)).2,
                     wal := (flushToWAL s.wal batch).2 })) ∧
    (∀ (k : Nat) (s : FlushState), k < maxRetries →
        (allow s.cb (env.now k)).1 = true → env.insertOk k = true →
        flushWithRetryAux retryDelay maxRetries env batch k s =
          (true, { s with cb := recordSuccess (allow s.cb (env.now k)).2,
                          store := s.store ++ batch,
                          insertTries := s.insertTries + 1 })) ∧
    (∀ (k : Nat) (s : FlushState), k < maxRetries →
        (allow s.cb (env.now k)).1 = true → env.insertOk k = false →
        k < maxRetries - 1 →
        flushWithRetryAux retryDelay maxRetries env batch k s =
          flushWithRetryAux retryDelay maxRetries env batch (k + 1)
            { s with cb := recordFailure (allow s.cb (env.now k)).2 (env.now k),
                     insertTries := s.insertTries + 1,
                     sleeps := s.sleeps ++
                       [retryDelay * 2 ^ k +
                        retryDelay * 2 ^ k * (1 / 5) * (2 * env.rand k - 1)] }) ∧
    (∀ (k : Nat) (s : FlushState), k < maxRetries →
        (allow s.cb (env.now k)).1 = true → env.insertOk k = false →
        ¬ k < maxRetries - 1 →
        flushWithRetryAux retryDelay maxRetries env batch k s =
          flushWithRetryAux retryDelay maxRetries env batch (k + 1)
            { s with cb := recordFailure (allow s.cb (env.now k)).2 (env.now k),
                     insertTries := s.insertTries + 1 }) ∧
    (∀ s : FlushState,
        flushWithRetryAux retryDelay maxRetries env batch maxRetries s =
          ((flushToWAL s.wal batch).1, { s with wal := (flushToWAL s.wal batch).2 })) ∧
    (∀ s : FlushState,
        ((flushWithRetry retryDelay maxRetries env batch s).1 = true ∧
         (flushWithRetry retryDelay maxRetries env batch s).2.store = s.store ++ batch ∧
         (flushWithRetry retryDelay maxRetries env batch s).2.wal = s.wal) ∨
        ((flushWithRetry retryDelay maxRetries env batch s).2.store = s.store ∧
         (flushWithRetry retryDelay maxRetries env batch s).2.wal
            = (flushToWAL s.wal batch).2 ∧
         (flushWithRetry retryDelay maxRetries env batch s).1
            = (flushToWAL s.wal batch).1)) ∧
    (0 ≤ retryDelay → (∀ j, 0 ≤ env.rand j ∧ env.rand j ≤ 1) →
        ∀ s : FlushState, s.sleeps = [] →
        ∀ d ∈ (flushWithRetry retryDelay maxRetries env batch s).2.sleeps,
          ∃ j, j + 1 < maxRetries ∧
            |d - retryDelay * 2 ^ j| ≤ retryDelay * 2 ^ j * (1 / 5)) := by
  refine ⟨fun k s hk hdeny => flushAux_denied retryDelay maxRetries env batch k s hk hdeny,
          fun k s hk hal hok => flushAux_success retryDelay maxRetries env batch k s hk hal hok,
          fun k s hk hal hok hmore =>
            flushAux_fail_sleep retryDelay maxRetries env batch k s hk hal hok hmore,
          fun k s hk hal hok hmore =>
            flushAux_fail_last retryDelay maxRetries env batch k s hk hal hok hmore,
          fun s => flushAux_exhausted retryDelay maxRetries env batch maxRetries s
            (by omega),
          fun s => flushAux_outcome retryDelay maxRetries env batch maxRetries 0 s
            (by omega),
          ?_⟩
  intro hd hr s hempty d hm
  have h := flushAux_sleeps retryDelay maxRetries env batch hd hr maxRetries 0 s
    (by omega) d hm
  rcases h with hin | hex
  · rw [hempty] at hin
    exact absurd hin (List.not_mem_nil d)
  · exact hex

/-- A concrete sample used by the C5 witness. -/
def pt0 : TelemetryPoint :=
  { satelliteID := "SAT-05", batteryChargePercent := 50, storageUsageMB := 1000,
    signalStrengthDBM := -60, timestamp := 9, isAnomaly := false,
    latitude := none, longitude := none, altitudeKM := none, velocityKMPH := none }

/-- A breaker that tripped OPEN at instant 0 with a long recovery timeout. -/
def cbOpen : CircuitBreaker :=
  { state := CBState.Open, failureCount := 3, failureThreshold := 3,
    lastFailureTime := 0, timeout := 1000, halfOpenAttempts := 0 }

/-- An environment whose clock reads 5 (inside the recovery window of `cbOpen`). -/
def env0 : FlushEnv :=
  { insertOk := fun _ => false, now := fun _ => 5, rand := fun _ => 0 }

/-- A fresh flush state with an open breaker and an empty configured WAL. -/
def s0 : FlushState :=
  { cb := cbOpen, wal := some [], store := [], sleeps := [], insertTries := 0 }

/-- Witness for C5: with the breaker OPEN inside its recovery window, the very
first attempt is denied and the batch goes straight to the WAL, the store
untouched and no retries consumed. -/
theorem claim_C5_witness :
    flushWithRetryAux 1 5 env0 [pt0] 0 s0 =
      (true, { s0 with cb := cbOpen, wal := some [toWALRecord pt0] }) :=
  (claim_C5_flush_with_retry 1 5 env0 [pt0]).1 0 s0 (by decide) rfl

end OrbitStream
